import Mathlib

/-!
# Verification of the MQTT-to-InfluxDB forwarder (`forwarder.py`)

This file gives a shallow embedding of the message-translation pipeline of
`forwarder.py`: topic parsing (the `re.match` in `on_message`), payload
decoding (`json.loads` plus the `float()` coercion policy), sink dispatch
(the `for store in self.stores` loop), the `InfluxStore.store_msg` adapter,
the one-time topic-prefix normalization in `MQTTSource._setup_handlers`,
and the `MessageSource` registration protocol.

Modelling conventions:
* The raw MQTT payload is modelled as a `String` (the textual content of the
  payload bytes); `str(payload)` is the identity on this model.
* Python floats are idealized as exact rationals (`ℚ`).  The non-finite
  forms `inf`/`nan` (accepted by Python's `float()` and by `json.loads` as
  `Infinity`/`NaN`) and digit-group underscores are outside the model.
* `\w` in the topic-token regex is modelled as the ASCII word characters
  `[A-Za-z0-9_]`; the configured prefix is interpolated into the regex
  verbatim by the source and is modelled as a literal string.
* Exceptions are modelled with `Except`; the Python exception classes that
  the code raises or catches are the constructors of `PyErr`.
-/

set_option autoImplicit false

namespace Fwd

/-- A decoded JSON value, the result type of `json.loads`.  Python's distinct
`int` and `float` results are both modelled as `jnum`. -/
inductive JValue where
  | jnum  : ℚ → JValue
  | jstr  : String → JValue
  | jbool : Bool → JValue
  | jnull : JValue
  | jarr  : List JValue → JValue
  | jobj  : List (String × JValue) → JValue

/-- The Python exception classes appearing in `forwarder.py`:
`ValueError` (bad `float()` argument / non-dict data in `store_msg`),
`TypeError` (`float()` of `None`, a list or a dict),
`AttributeError` (`self._stores` accessed before any `register_store`),
`NotImplementedError` (`MessageStore.store_msg`), and the non-`ConnectionError`
exceptions escaping `influx_client.write_points` (e.g. `InfluxDBClientError`
when the backend rejects a write). -/
inductive PyErr where
  | valueError
  | typeError
  | attributeError
  | notImplementedError
  | influxClientError
deriving DecidableEq

/-! ## Numeric parsing: Python `float()` and JSON numbers -/

/-- Digits to a natural number, most significant first. -/
def digitsToNat (ds : List Char) : Nat :=
  ds.foldl (fun a c => a * 10 + (c.toNat - 48)) 0

/-- JSON/Python whitespace skip (space, tab, newline, carriage return). -/
def skipWs : List Char → List Char
  | c :: r => if c == ' ' || c == '\t' || c == '\n' || c == '\r' then skipWs r else c :: r
  | [] => []

/-- Strip whitespace from both ends (Python `float()` strips its argument). -/
def stripWs (l : List Char) : List Char :=
  (skipWs (skipWs l).reverse).reverse

/-- Assemble a rational from sign, integer digits, fraction digits and a
signed decimal exponent. -/
def qOfParts (neg : Bool) (ids fds : List Char) (eneg : Bool) (eds : List Char) : ℚ :=
  let m : Nat := digitsToNat (ids ++ fds)
  let sign : Int := if neg then -1 else 1
  let e : Nat := digitsToNat eds
  if eneg then mkRat (sign * m) (10 ^ (fds.length + e))
  else mkRat (sign * (m * 10 ^ e)) (10 ^ fds.length)

/-- Python's `float(str)` on finite decimal literals: optional surrounding
whitespace, optional sign, then `d+[.d*]`, `.d+` or `d+.`, with an optional
exponent.  Returns `none` exactly when `float()` raises `ValueError`. -/
def pyFloatStr (s : String) : Option ℚ :=
  let l := stripWs s.data
  let (neg, l1) : Bool × List Char :=
    match l with
    | '-' :: r => (true, r)
    | '+' :: r => (false, r)
    | _ => (false, l)
  let (ids, r1) := l1.span Char.isDigit
  let (fds, r2) : List Char × List Char :=
    match r1 with
    | '.' :: r => r.span Char.isDigit
    | _ => ([], r1)
  if (ids ++ fds).isEmpty then none
  else
    match r2 with
    | [] => some (qOfParts neg ids fds false [])
    | c :: rr =>
      if c == 'e' || c == 'E' then
        let (eneg, rr1) : Bool × List Char :=
          match rr with
          | '-' :: r => (true, r)
          | '+' :: r => (false, r)
          | _ => (false, rr)
        let (eds, rr2) := rr1.span Char.isDigit
        if eds.isEmpty || !rr2.isEmpty then none
        else some (qOfParts neg ids fds eneg eds)
      else none

/-! ## The JSON parser (`json.loads`) -/

/-- Integer part of a JSON number: `0`, or a nonzero digit followed by more
digits (JSON forbids leading zeros). -/
def parseIntDigits : List Char → Option (List Char × List Char)
  | '0' :: r => some (['0'], r)
  | c :: r => if c.isDigit then some (c :: (r.span Char.isDigit).1, (r.span Char.isDigit).2) else none
  | [] => none

/-- Exponent part of a JSON number; if malformed the number ends before the
exponent marker. -/
def parseExp (neg : Bool) (ids fds rr fallback : List Char) : Option (ℚ × List Char) :=
  let (eneg, rr1) : Bool × List Char :=
    match rr with
    | '-' :: r => (true, r)
    | '+' :: r => (false, r)
    | _ => (false, rr)
  match rr1.span Char.isDigit with
  | ([], _) => some (qOfParts neg ids fds false [], fallback)
  | (eds, rr2) => some (qOfParts neg ids fds eneg eds, rr2)

/-- A JSON number literal at the head of the input. -/
def parseJNum (l : List Char) : Option (ℚ × List Char) :=
  let (neg, l1) : Bool × List Char :=
    match l with
    | '-' :: r => (true, r)
    | _ => (false, l)
  match parseIntDigits l1 with
  | none => none
  | some (ids, r1) =>
    let (fds, r2) : List Char × List Char :=
      match r1 with
      | '.' :: r =>
        match r.span Char.isDigit with
        | ([], _) => ([], r1)
        | (ds, rr) => (ds, rr)
      | _ => ([], r1)
    match r2 with
    | 'e' :: rr => parseExp neg ids fds rr r2
    | 'E' :: rr => parseExp neg ids fds rr r2
    | _ => some (qOfParts neg ids fds false [], r2)

/-- Value of an ASCII hex digit. -/
def hexVal (c : Char) : Option Nat :=
  if c.isDigit then some (c.toNat - 48)
  else if 97 ≤ c.toNat ∧ c.toNat ≤ 102 then some (c.toNat - 87)
  else if 65 ≤ c.toNat ∧ c.toNat ≤ 70 then some (c.toNat - 55)
  else none

/-- Body of a JSON string literal after the opening quote; handles the JSON
escapes and rejects raw control characters (Python `json.loads` is strict). -/
def parseStrChars : List Char → Option (List Char × List Char)
  | [] => none
  | '"' :: r => some ([], r)
  | '\\' :: r =>
    match r with
    | 'n' :: rr => (parseStrChars rr).map (fun p => ('\n' :: p.1, p.2))
    | 't' :: rr => (parseStrChars rr).map (fun p => ('\t' :: p.1, p.2))
    | 'r' :: rr => (parseStrChars rr).map (fun p => ('\r' :: p.1, p.2))
    | 'b' :: rr => (parseStrChars rr).map (fun p => ('\x08' :: p.1, p.2))
    | 'f' :: rr => (parseStrChars rr).map (fun p => ('\x0C' :: p.1, p.2))
    | '/' :: rr => (parseStrChars rr).map (fun p => ('/' :: p.1, p.2))
    | '\\' :: rr => (parseStrChars rr).map (fun p => ('\\' :: p.1, p.2))
    | '"' :: rr => (parseStrChars rr).map (fun p => ('"' :: p.1, p.2))
    | 'u' :: a :: b :: c :: d :: rr =>
      match hexVal a, hexVal b, hexVal c, hexVal d with
      | some ha, some hb, some hc, some hd =>
        (parseStrChars rr).map
          (fun p => (Char.ofNat (((ha * 16 + hb) * 16 + hc) * 16 + hd) :: p.1, p.2))
      | _, _, _, _ => none
    | _ => none
  | c :: r =>
    if c.toNat < 32 then none
    else (parseStrChars r).map (fun p => (c :: p.1, p.2))

/-- A JSON string literal body, as a `String`. -/
def parseStringRest (l : List Char) : Option (String × List Char) :=
  (parseStrChars l).map (fun p => (String.mk p.1, p.2))

/-- Insert a key/value pair with Python `dict` semantics: a repeated key keeps
its first position but takes the latest value. -/
def insertKV (kvs : List (String × JValue)) (k : String) (v : JValue) : List (String × JValue) :=
  match kvs with
  | [] => [(k, v)]
  | (k', v') :: rest => if k' == k then (k', v) :: rest else (k', v') :: insertKV rest k v

mutual

/-- A JSON value at the head of the input (fuel-indexed recursion). -/
def parseVal : Nat → List Char → Option (JValue × List Char)
  | 0, _ => none
  | fuel + 1, l =>
    match skipWs l with
    | 'n' :: 'u' :: 'l' :: 'l' :: r => some (.jnull, r)
    | 't' :: 'r' :: 'u' :: 'e' :: r => some (.jbool true, r)
    | 'f' :: 'a' :: 'l' :: 's' :: 'e' :: r => some (.jbool false, r)
    | '"' :: r => (parseStringRest r).map (fun p => (.jstr p.1, p.2))
    | '[' :: r =>
      match skipWs r with
      | ']' :: rr => some (.jarr [], rr)
      | r' => (parseArrRest fuel r').map (fun p => (.jarr p.1, p.2))
    | '\x7b' :: r =>
      match skipWs r with
      | '\x7d' :: rr => some (.jobj [], rr)
      | r' => (parseObjRest fuel [] r').map (fun p => (.jobj p.1, p.2))
    | r => (parseJNum r).map (fun p => (.jnum p.1, p.2))

/-- Comma-separated array elements followed by `]`. -/
def parseArrRest : Nat → List Char → Option (List JValue × List Char)
  | 0, _ => none
  | fuel + 1, l =>
    match parseVal fuel l with
    | none => none
    | some (v, r1) =>
      match skipWs r1 with
      | ',' :: r2 => (parseArrRest fuel r2).map (fun p => (v :: p.1, p.2))
      | ']' :: r2 => some ([v], r2)
      | _ => none

/-- Comma-separated `"key": value` members followed by the closing brace,
accumulating into a dict left to right. -/
def parseObjRest : Nat → List (String × JValue) → List Char → Option (List (String × JValue) × List Char)
  | 0, _, _ => none
  | fuel + 1, acc, l =>
    match skipWs l with
    | '"' :: r =>
      match parseStringRest r with
      | none => none
      | some (k, r1) =>
        match skipWs r1 with
        | ':' :: r2 =>
          match parseVal fuel r2 with
          | none => none
          | some (v, r3) =>
            match skipWs r3 with
            | ',' :: r4 => parseObjRest fuel (insertKV acc k v) r4
            | '\x7d' :: r4 => some (insertKV acc k v, r4)
            | _ => none
        | _ => none
    | _ => none

end

/-- `json.loads` on the textual payload: parse one JSON value and require
only whitespace after it.  `none` models the `ValueError` that the caller
catches. -/
def jsonLoads (s : String) : Option JValue :=
  match parseVal (2 * s.data.length + 8) s.data with
  | some (v, rest) => if (skipWs rest).isEmpty then some v else none
  | none => none

/-! ## Payload decoding (`on_message`, lines 133–157) -/

/-- Python's `str()` applied to the textual payload; the identity on this
model of payloads. -/
def pyStrOfStr (s : String) : String := s

/-- Python's `float()` applied to a decoded JSON value, as used in
`stored_message[key] = float(stored_message[key])`: numbers pass through,
booleans coerce to `1.0`/`0.0`, strings are parsed (raising `ValueError` on
failure), and `None`, lists and dicts raise `TypeError`. -/
def pyFloatOfJValue : JValue → Except PyErr ℚ
  | .jnum q => .ok q
  | .jbool b => .ok (if b then 1 else 0)
  | .jstr s =>
    match pyFloatStr s with
    | some q => .ok q
    | none => .error .valueError
  | .jnull => .error .typeError
  | .jarr _ => .error .typeError
  | .jobj _ => .error .typeError

/-- The coercion loop over the keys of a decoded JSON object
(lines 143–147): `float()` each value, catching only `ValueError`
(the value is then left unchanged); any other exception propagates. -/
def coerceLoop : List (String × JValue) → Except PyErr (List (String × JValue))
  | [] => .ok []
  | (k, v) :: rest =>
    match pyFloatOfJValue v with
    | .ok q => (coerceLoop rest).map (fun t => (k, JValue.jnum q) :: t)
    | .error .valueError => (coerceLoop rest).map (fun t => (k, v) :: t)
    | .error e => .error e

/-- The `is_value_json_dict` flag of lines 135–140. -/
def is_value_json_dict ( raw : String) : Bool :=
  match jsonLoads raw with
  | some (.jobj _) => true
  | _ => false

/-- The single-value branch of lines 148–157: stringify wins when the
measurement is configured for it, otherwise try `float()` on the raw payload
and fall back to the string. -/
def decodeScalar ( raw measurement_name : String) (stringify : List String) : Except PyErr (List (String × JValue)) :=
  if measurement_name ∈ stringify then .ok [("value", .jstr (pyStrOfStr raw))]
  else
    match pyFloatStr raw with
    | some q => .ok [("value", .jnum q)]
    | none => .ok [("value", .jstr raw)]

/-- The full payload-decoding stage of `on_message` (lines 133–157),
producing the `stored_message` dict or the uncaught exception that escapes
the handler. -/
def decodePayload ( raw measurement_name : String) (stringify : List String) : Except PyErr (List (String × JValue)) :=
  match jsonLoads raw with
  | some (.jobj kvs) => coerceLoop kvs
  | _ => decodeScalar raw measurement_name stringify

/-! ## Topic parsing (`on_message`, lines 117–125) -/

/-- A character of the token class `(?:\w|-|\.)+`, with `\w` modelled as the
ASCII word characters. -/
def isTokenChar (c : Char) : Bool :=
  c.isAlphanum || c == '_' || c == '-' || c == '.'

/-- Match a literal character sequence at the head of the input (the
configured prefix interpolated into the regex). -/
def dropLit : List Char → List Char → Option (List Char)
  | [], l => some l
  | _ :: _, [] => none
  | p :: ps, c :: cs => if p == c then dropLit ps cs else none

/-- The anchored match of the topic regex
`{topic_prefix}/(?P<node_name>tok)/(?P<measurement_name>tok)/?` performed by
`re.match`: the prefix literally, a `/`, a maximal nonempty token run, a `/`,
a maximal nonempty token run; anything may follow (`re.match` does not anchor
the end, and `/` never belongs to a token, so the greedy match never needs
backtracking). -/
def parseTopicChars (pre : List Char) (topic : List Char) : Option (String × String) :=
  match dropLit (pre ++ ['/']) topic with
  | none => none
  | some rest =>
    match rest.span isTokenChar with
    | ([], _) => none
    | (t1, r1) =>
      match r1 with
      | '/' :: r2 =>
        match r2.span isTokenChar with
        | ([], _) => none
        | (t2, _) => some (String.mk t1, String.mk t2)
      | _ => none

/-! ## Sinks and dispatch (`MessageStore`, `InfluxStore`, lines 32–61 and 159–160) -/

/-- The capability interface of a sink: the `store_msg(node_name,
measurement_name, data)` call, returning `()` or raising. -/
abbrev Sink := String → String → JValue → Except PyErr Unit

/-- One outcome of the external `influx_client.write_points` call:
success, a `requests.exceptions.ConnectionError` (backend unreachable), or
any other exception such as `InfluxDBClientError` (backend rejects the
write). -/
inductive WriteOutcome where
  | success
  | connectionError
  | clientError

/-- The point constructed by `InfluxStore.store_msg` (lines 49–55). -/
structure InfluxPoint where
  measurement : String
  sensor_node : String
  fields : JValue

/-- `InfluxStore.store_msg` (lines 46–60): reject non-dict data with
`ValueError`, then write one point, catching exactly
`requests.exceptions.ConnectionError` (which is logged); every other
exception from the write propagates. -/
def influxStoreMsg (write : InfluxPoint → WriteOutcome) : Sink :=
  fun node_name measurement_name data =>
    match data with
    | .jobj _ =>
      match write ⟨measurement_name, node_name, data⟩ with
      | .success => .ok ()
      | .connectionError => .ok ()
      | .clientError => .error .influxClientError
    | _ => .error .valueError

/-- The dispatch loop `for store in self.stores: store.store_msg(...)`
(lines 159–160).  There is no exception handling around the calls, so the
first raising store aborts the loop.  Returns the number of `store_msg`
calls made and the exception, if any, escaping the loop. -/
def runStores : List Sink → String → String → JValue → Nat × Option PyErr
  | [], _, _, _ => (0, none)
  | s :: rest, n, m, d =>
    match s n m d with
    | .ok _ =>
      let r := runStores rest n m d
      (r.1 + 1, r.2)
    | .error e => (1, some e)

/-! ## Registration (`MessageSource`, lines 63–72) -/

/-- The `self._stores` attribute: `none` models the attribute not existing
(it is created lazily by the first `register_store` call). -/
abbrev StoresAttr := Option (List Sink)

/-- `MessageSource.register_store` (lines 64–67): create the list on first
use, then append. -/
def register_store (attr : StoresAttr) (store : Sink) : StoresAttr :=
  match attr with
  | none => some [store]
  | some l => some (l ++ [store])

/-- The `stores` property (lines 69–72): reading `self._stores` raises
`AttributeError` when no registration ever happened. -/
def storesRead (attr : StoresAttr) : Except PyErr (List Sink) :=
  match attr with
  | none => .error .attributeError
  | some l => .ok l

/-! ## The message handler (`on_message`, lines 114–160) -/

/-- The configuration captured by the `on_message` closure. -/
structure Config where
  topicPre : List Char
  nodeNames : List String
  stringify : List String

/-- A warning logged by `on_message`. -/
inductive LogWarning where
  | parseFailure (topic : String)
  | unknownNode (node_name : String)

/-- Everything observable about one `on_message` invocation: the warnings
logged, the `(node_name, measurement_name, stored_message)` triple when the
handler reaches the dispatch stage, the number of `store_msg` calls made,
and the exception escaping the handler, if any. -/
structure HandleOutcome where
  warnings : List LogWarning
  message : Option (String × String × List (String × JValue))
  storeCalls : Nat
  raised : Option PyErr

/-- `on_message` (lines 114–160): parse the topic (dropping the message on
mismatch), warn on unknown node names but continue, decode the payload, and
dispatch to every registered store in order. -/
def on_message (cfg : Config) (attr : StoresAttr) (topic payload : String) : HandleOutcome :=
  match parseTopicChars cfg.topicPre topic.data with
  | none => ⟨[.parseFailure topic], none, 0, none⟩
  | some (node_name, measurement_name) =>
    let ws : List LogWarning :=
      if node_name ∈ cfg.nodeNames then [] else [.unknownNode node_name]
    match decodePayload payload measurement_name cfg.stringify with
    | .error e => ⟨ws, none, 0, some e⟩
    | .ok stored_message =>
      match attr with
      | none => ⟨ws, some (node_name, measurement_name, stored_message), 0, some .attributeError⟩
      | some sinks =>
        let r := runStores sinks node_name measurement_name (.jobj stored_message)
        ⟨ws, some (node_name, measurement_name, stored_message), r.1, r.2⟩

/-! ## Prefix normalization (`_setup_handlers`, lines 97–102)

The source manipulates the prefix with `startswith`, string concatenation,
`endswith` and the slice `[:-1]`; these are modelled on the character list
of the prefix (`head?`, cons, `getLast?`, `dropLast`). -/

/-- The one-time normalization of `self.topic_prefix`: for a truthy (i.e.
non-empty) prefix, prepend `/` when it does not already start with `/`, then
strip one trailing `/` when it ends with `/`. -/
def normalizePre (p : List Char) : List Char :=
  if p = [] then p
  else
    let p1 : List Char := if p.head? = some '/' then p else '/' :: p
    if p1.getLast? = some '/' then p1.dropLast else p1

/-! ## The `stores` property returns a copy (lines 69–72)

To state the aliasing claim, list objects are modelled as cells in a tiny
heap (a list of cells, each holding a list of sink identifiers); a Python
reference is an index into the heap.  `list(self._stores)` allocates a fresh
cell holding the same contents. -/

/-- Read a heap cell. -/
def readCell (h : List (List Nat)) (r : Nat) : List Nat := h.getD r []

/-- Overwrite a heap cell: an in-place mutation of the list object `r`. -/
def writeCell (h : List (List Nat)) (r : Nat) (v : List Nat) : List (List Nat) :=
  h.set r v

/-- The `stores` property under the heap model: `return list(self._stores)`
allocates a fresh cell with a copy of the contents of `self._stores` and
returns a reference to it. -/
def storesCopy (h : List (List Nat)) (selfStores : Nat) : List (List Nat) × Nat :=
  (h ++ [readCell h selfStores], h.length)

/-! ## Shared lemmas -/

theorem runStores_all_ok (sinks : List Sink) (n m : String) (d : JValue)
    (h : ∀ s ∈ sinks, s n m d = .ok ()) : runStores sinks n m d = (sinks.length, none) := by
  induction sinks with
  | nil => rfl
  | cons s rest ih =>
    have hs := h s (List.mem_cons_self s rest)
    have hr := ih (fun t ht => h t (List.mem_cons_of_mem s ht))
    simp [runStores, hs, hr]

/-- A JSON value on which the `float()` call of the coercion loop cannot
raise `TypeError`: a number, a boolean or a string. -/
def coercible : JValue → Bool
  | .jnum _ => true
  | .jbool _ => true
  | .jstr _ => true
  | _ => false

/-- The per-value coercion the code actually performs on number, boolean and
string values: numbers are kept, booleans become `1`/`0`, strings are parsed
as floats where possible and left unchanged otherwise. -/
def coerceValueAmended : JValue → JValue
  | .jnum q => .jnum q
  | .jbool b => .jnum (if b then 1 else 0)
  | .jstr s =>
    match pyFloatStr s with
    | some q => .jnum q
    | none => .jstr s
  | v => v

theorem coerceLoop_ok (kvs : List (String × JValue))
    (h : kvs.all (fun p => coercible p.2) = true) :
    coerceLoop kvs = .ok (kvs.map (fun p => (p.1, coerceValueAmended p.2))) := by
  induction kvs with
  | nil => rfl
  | cons p rest ih =>
    obtain ⟨k, v⟩ := p
    rw [List.all_cons] at h
    have hv : coercible v = true := by
      cases hcv : coercible v <;> simp [hcv] at h ⊢
    have hrest : rest.all (fun p => coercible p.2) = true := by
      cases hcr : rest.all (fun p => coercible p.2) <;> simp [hcr] at h ⊢
    have hr := ih hrest
    cases v with
    | jnum q => simp [coerceLoop, pyFloatOfJValue, hr, coerceValueAmended, Except.map]
    | jbool b => simp [coerceLoop, pyFloatOfJValue, hr, coerceValueAmended, Except.map]
    | jstr s =>
      cases hp : pyFloatStr s with
      | some q => simp [coerceLoop, pyFloatOfJValue, hp, hr, coerceValueAmended, Except.map]
      | none => simp [coerceLoop, pyFloatOfJValue, hp, hr, coerceValueAmended, Except.map]
    | jnull => simp [coercible] at hv
    | jarr xs => simp [coercible] at hv
    | jobj kvs2 => simp [coercible] at hv

theorem coerceLoop_err (kvs : List (String × JValue))
    (h : kvs.all (fun p => coercible p.2) = false) :
    coerceLoop kvs = .error .typeError := by
  induction kvs with
  | nil => simp at h
  | cons p rest ih =>
    obtain ⟨k, v⟩ := p
    rw [List.all_cons] at h
    cases hv : coercible v with
    | false =>
      cases v with
      | jnull => simp [coerceLoop, pyFloatOfJValue]
      | jarr xs => simp [coerceLoop, pyFloatOfJValue]
      | jobj kvs2 => simp [coerceLoop, pyFloatOfJValue]
      | jnum q => simp [coercible] at hv
      | jbool b => simp [coercible] at hv
      | jstr s => simp [coercible] at hv
    | true =>
      rw [hv] at h
      simp only [Bool.true_and] at h
      have hr := ih h
      cases v with
      | jnum q => simp [coerceLoop, pyFloatOfJValue, hr, Except.map]
      | jbool b => simp [coerceLoop, pyFloatOfJValue, hr, Except.map]
      | jstr s =>
        cases hp : pyFloatStr s with
        | some q => simp [coerceLoop, pyFloatOfJValue, hp, hr, Except.map]
        | none => simp [coerceLoop, pyFloatOfJValue, hp, hr, Except.map]
      | jnull => simp [coercible] at hv
      | jarr xs => simp [coercible] at hv
      | jobj kvs2 => simp [coercible] at hv

theorem decodePayload_not_dict ( raw m : String) (strs : List String)
    (h : is_value_json_dict raw = false) :
    decodePayload raw m strs = decodeScalar raw m strs := by
  cases hj : jsonLoads raw with
  | none => simp [decodePayload, hj]
  | some v =>
    cases v with
    | jobj kvs => simp [is_value_json_dict, hj] at h
    | jnum q => simp [decodePayload, hj]
    | jstr s => simp [decodePayload, hj]
    | jbool b => simp [decodePayload, hj]
    | jnull => simp [decodePayload, hj]
    | jarr xs => simp [decodePayload, hj]

/-! ## Concrete fixtures used by witnesses and counterexamples -/

/-- A configuration with prefix `/sensors`, allow-list `["node1"]` and an
empty stringify set. -/
def cfgEx : Config := ⟨"/sensors".data, ["node1"], []⟩

/-- A sink whose `store_msg` succeeds. -/
def okSinkEx : Sink := fun _ _ _ => .ok ()

/-- A sink whose `store_msg` raises (as the abstract `MessageStore.store_msg`
of lines 32–34 does). -/
def failSinkEx : Sink := fun _ _ _ => .error .notImplementedError

/-! ## Claims -/

/-- Claim C1, counterexample.  The claim says every non-coercible value is
passed through unchanged and decoding never hard-fails.  But `float(None)`
raises `TypeError`, which the loop (catching only `ValueError`) does not
catch, so the payload `\x7b"a": null\x7d` hard-fails decoding; and
`float(True)` succeeds, so the boolean in `\x7b"a": true\x7d` is coerced to
the number `1.0` instead of being passed through. -/
theorem c1_counterexample :
    decodePayload "\x7b\"a\": null\x7d" "temperature" [] = .error .typeError ∧
    decodePayload "\x7b\"a\": true\x7d" "temperature" [] = .ok [("a", .jnum 1)] :=
  ⟨rfl, rfl⟩

/-- Claim C1, amended: for every payload that decodes as a JSON object, the
decoder attempts `float()` on each value; when every value is a number,
boolean or string, decoding succeeds, keys are preserved in order, numeric
strings are coerced, non-numeric strings are left unchanged (`ValueError` is
caught) and booleans are coerced to `1`/`0`; when some value is `null`, an
array or an object, the `float()` call raises `TypeError`, which is not
caught, and decoding hard-fails. -/
theorem c1_amended ( raw m : String) (strs : List String) (kvs : List (String × JValue))
    (h : jsonLoads raw = some (.jobj kvs)) :
    (kvs.all (fun p => coercible p.2) = true →
      decodePayload raw m strs = .ok (kvs.map (fun p => (p.1, coerceValueAmended p.2)))) ∧
    (kvs.all (fun p => coercible p.2) = false →
      decodePayload raw m strs = .error .typeError) := by
  constructor
  · intro hall
    simp only [decodePayload, h]
    exact coerceLoop_ok kvs hall
  · intro hall
    simp only [decodePayload, h]
    exact coerceLoop_err kvs hall

/-- Witness for C1 at the spec's round-trip example: `\x7b"a": "1.5",
"b": "x"\x7d` decodes to `\x7b"a": 1.5, "b": "x"\x7d`. -/
theorem c1_witness :
    decodePayload "\x7b\"a\": \"1.5\", \"b\": \"x\"\x7d" "temperature" [] =
      .ok [("a", .jnum (mkRat 3 2)), ("b", .jstr "x")] :=
  (c1_amended "\x7b\"a\": \"1.5\", \"b\": \"x\"\x7d" "temperature" []
    [("a", .jstr "1.5"), ("b", .jstr "x")] rfl).1 rfl

/-- Claim C2: for every topic that does not match
`prefix/(tok)/(tok)` the handler logs the parse failure and returns
without raising and without invoking any store. -/
theorem c2_parse_error_drops (cfg : Config) (attr : StoresAttr) (topic payload : String)
    (h : parseTopicChars cfg.topicPre topic.data = none) :
    on_message cfg attr topic payload = ⟨[.parseFailure topic], none, 0, none⟩ := by
  simp [on_message, h]

/-- Witness for C2: the topic `/sensors/node1` (no measurement segment) is
dropped with zero store calls. -/
theorem c2_witness :
    parseTopicChars cfgEx.topicPre "/sensors/node1".data = none ∧
    on_message cfgEx (some [okSinkEx]) "/sensors/node1" "23.4" =
      ⟨[.parseFailure "/sensors/node1"], none, 0, none⟩ :=
  ⟨rfl, c2_parse_error_drops cfgEx (some [okSinkEx]) "/sensors/node1" "23.4" rfl⟩

/-- Claim C3, counterexample.  Two sinks are registered and one well-formed
event is dispatched; the first sink's `store_msg` raises.  The dispatch loop
has no exception handling, so only one `store_msg` call is made — the second
sink is never invoked — and the exception escapes the handler. -/
theorem c3_counterexample :
    [failSinkEx, okSinkEx].length = 2 ∧
    on_message cfgEx (some [failSinkEx, okSinkEx]) "/sensors/node1/temperature" "1" =
      ⟨[], some ("node1", "temperature", [("value", .jnum 1)]), 1,
        some .notImplementedError⟩ :=
  ⟨rfl, rfl⟩

/-- Claim C3, amended: both stores are invoked in registration order with the
same decoded fields provided the first `store_msg` call returns rather than
raising; in particular a connection-error write failure inside the concrete
`InfluxStore` is caught within `store_msg` itself, so it does not prevent the
second sink from being invoked. -/
theorem c3_amended (s2 : Sink) (n m : String) (kvs : List (String × JValue))
    (h : s2 n m (.jobj kvs) = .ok ()) :
    influxStoreMsg (fun _ => .connectionError) n m (.jobj kvs) = .ok () ∧
    runStores [influxStoreMsg (fun _ => .connectionError), s2] n m (.jobj kvs) = (2, none) := by
  refine ⟨rfl, ?_⟩
  simp [runStores, influxStoreMsg, h]

/-- Witness for C3: an `InfluxStore` whose write fails with a connection
error, followed by a succeeding sink; both are invoked. -/
theorem c3_witness :
    okSinkEx "node1" "temperature" (.jobj [("value", .jnum 1)]) = .ok () ∧
    runStores [influxStoreMsg (fun _ => .connectionError), okSinkEx]
      "node1" "temperature" (.jobj [("value", .jnum 1)]) = (2, none) :=
  ⟨rfl, (c3_amended okSinkEx "node1" "temperature" [("value", .jnum 1)] rfl).2⟩

/-- Claim C4: for every scalar (non-JSON-object) payload whose measurement is
in the stringify set, the decoder forces the value to the string
representation of the raw payload, bypassing numeric coercion. -/
theorem c4_stringify_wins ( raw m : String) (strs : List String)
    (h : is_value_json_dict raw = false) (hm : m ∈ strs) :
    decodePayload raw m strs = .ok [("value", .jstr raw)] := by
  rw [decodePayload_not_dict raw m strs h]
  simp [decodeScalar, hm, pyStrOfStr]

/-- Witness for C4 at the spec's example: the scalar payload `23.4` for a
stringified measurement decodes to `\x7b"value": "23.4"\x7d`. -/
theorem c4_witness :
    is_value_json_dict "23.4" = false ∧ "door" ∈ ["door"] ∧
    decodePayload "23.4" "door" ["door"] = .ok [("value", .jstr "23.4")] :=
  ⟨rfl, by simp, c4_stringify_wins "23.4" "door" ["door"] rfl (by simp)⟩

/-- Claim C5, counterexample.  The claim says a write failure from the
backend rejecting the write is caught inside `store`; but `store_msg` catches
exactly `requests.exceptions.ConnectionError`, so a client error raised by
`write_points` (the backend rejecting the write) propagates to the caller. -/
theorem c5_counterexample :
    influxStoreMsg (fun _ => .clientError) "node1" "temperature"
      (.jobj [("value", .jnum 1)]) = .error .influxClientError :=
  rfl

/-- Claim C5, amended: a connection failure (backend unreachable) during the
write is caught and logged inside `store_msg` and does not propagate — and
the sink keeps no state between calls, so subsequent calls are unaffected —
while an error from the backend rejecting the write is not caught and
propagates to the caller. -/
theorem c5_amended (n m : String) (kvs : List (String × JValue)) :
    influxStoreMsg (fun _ => .connectionError) n m (.jobj kvs) = .ok () ∧
    influxStoreMsg (fun _ => .clientError) n m (.jobj kvs) = .error .influxClientError :=
  ⟨rfl, rfl⟩

/-! ## List helper lemmas for the prefix-normalization claim -/

theorem getLastConsNe {α : Type} (a : α) (l : List α) (h : l ≠ []) :
    (a :: l).getLast? = l.getLast? := by
  cases l with
  | nil => exact absurd rfl h
  | cons b t => exact List.getLast?_cons_cons

theorem dropLastConsNe {α : Type} (a : α) (l : List α) (h : l ≠ []) :
    (a :: l).dropLast = a :: l.dropLast := by
  cases l with
  | nil => exact absurd rfl h
  | cons b t => rfl

theorem headDropLast {α : Type} (l : List α) (h : l.dropLast ≠ []) :
    l.dropLast.head? = l.head? := by
  cases l with
  | nil => exact absurd rfl h
  | cons a t =>
    cases t with
    | nil => exact absurd rfl h
    | cons b t2 => rfl

/-- Claim C6, counterexample.  The claim says the stored prefix never ends
with `/` and has a single leading `/`.  But normalization strips only one
trailing slash, so the configured prefix `a//` is stored as `/a/`, which ends
with `/`; and it prepends a slash only when one is missing, so `//a` is
stored unchanged with a double leading slash. -/
theorem c6_counterexample :
    normalizePre "a//".data = "/a/".data ∧
    ("/a/".data).getLast? = some '/' ∧
    normalizePre "//a".data = "//a".data :=
  ⟨rfl, rfl, rfl⟩

/-- Claim C6, amended: after the one-time normalization, a non-empty
configured prefix is stored starting with `/` (possibly more than one, since
a slash is prepended only when absent) unless it normalizes to the empty
string, and — provided the configured value did not end with two or more
slashes — the stored prefix does not end with `/` (only one trailing slash is
stripped).  The stored prefix is a pure function of the configured one,
computed once; nothing in the handler mutates it afterwards. -/
theorem c6_amended (p : List Char) (hne : p ≠ [])
    (h2 : ¬(p.getLast? = some '/' ∧ p.dropLast.getLast? = some '/')) :
    (normalizePre p = [] ∨ (normalizePre p).head? = some '/') ∧
    (normalizePre p).getLast? ≠ some '/' := by
  by_cases hh : p.head? = some '/'
  · by_cases hl : p.getLast? = some '/'
    · have hres : normalizePre p = p.dropLast := by
        simp [normalizePre, hne, hh, hl]
      have hdl : p.dropLast.getLast? ≠ some '/' := fun hc => h2 ⟨hl, hc⟩
      refine ⟨?_, by rw [hres]; exact hdl⟩
      by_cases hdn : p.dropLast = []
      · exact Or.inl (hres ▸ hdn)
      · exact Or.inr (by rw [hres, headDropLast p hdn]; exact hh)
    · have hres : normalizePre p = p := by
        simp [normalizePre, hne, hh, hl]
      exact ⟨Or.inr (by rw [hres]; exact hh), by rw [hres]; exact hl⟩
  · have hgl : ('/' :: p).getLast? = p.getLast? := getLastConsNe '/' p hne
    by_cases hl : p.getLast? = some '/'
    · have hres : normalizePre p = '/' :: p.dropLast := by
        rw [← dropLastConsNe '/' p hne]
        simp [normalizePre, hne, hh, hgl, hl]
      have hdn : p.dropLast ≠ [] := by
        cases p with
        | nil => exact absurd rfl hne
        | cons a t =>
          cases t with
          | nil =>
            intro _
            apply hh
            simp only [List.getLast?_singleton, Option.some.injEq] at hl
            simp [hl]
          | cons b t2 => simp
      constructor
      · exact Or.inr (by rw [hres]; rfl)
      · rw [hres, getLastConsNe '/' p.dropLast hdn]
        exact fun hc => h2 ⟨hl, hc⟩
    · have hres : normalizePre p = '/' :: p := by
        simp [normalizePre, hne, hh, hgl, hl]
      exact ⟨Or.inr (by rw [hres]; rfl), by rw [hres, hgl]; exact hl⟩

/-- Witness for C6 at the configured prefix `abc/`: stored as `/abc`, which
starts with `/` and does not end with `/`. -/
theorem c6_witness :
    ("abc/".data ≠ ([] : List Char)) ∧
    ((normalizePre "abc/".data = [] ∨ (normalizePre "abc/".data).head? = some '/') ∧
      (normalizePre "abc/".data).getLast? ≠ some '/') :=
  ⟨by decide, c6_amended "abc/".data (by decide) (by decide)⟩

/-- Claim C7: a payload that is neither valid JSON nor parseable as a float
decodes to the single-entry string mapping, whether or not the measurement is
in the stringify set — never a hard failure. -/
theorem c7_fallback_string ( raw m : String) (strs : List String)
    (hj : jsonLoads raw = none) (hf : pyFloatStr raw = none) :
    decodePayload raw m strs = .ok [("value", .jstr raw)] := by
  simp only [decodePayload, hj]
  by_cases hm : m ∈ strs
  · simp [decodeScalar, hm, pyStrOfStr]
  · simp [decodeScalar, hm, hf]

/-- Witness for C7 at the spec's example payload `open`, both with and
without the measurement in the stringify set. -/
theorem c7_witness :
    jsonLoads "open" = none ∧ pyFloatStr "open" = none ∧
    decodePayload "open" "door" ["door"] = .ok [("value", .jstr "open")] ∧
    decodePayload "open" "temperature" [] = .ok [("value", .jstr "open")] :=
  ⟨rfl, rfl, c7_fallback_string "open" "door" ["door"] rfl rfl,
    c7_fallback_string "open" "temperature" [] rfl rfl⟩

/-- Claim C8: when the topic parses but the node name is not in the
allow-list, the handler logs exactly the unknown-node warning and still
dispatches the decoded message to every registered sink, in order. -/
theorem c8_unknown_node_still_forwarded (cfg : Config) (sinks : List Sink)
    (topic payload n m : String) (kvs : List (String × JValue))
    (hp : parseTopicChars cfg.topicPre topic.data = some (n, m))
    (hn : n ∉ cfg.nodeNames)
    (hd : decodePayload payload m cfg.stringify = .ok kvs)
    (hs : ∀ s ∈ sinks, s n m (.jobj kvs) = .ok ()) :
    on_message cfg (some sinks) topic payload =
      ⟨[.unknownNode n], some (n, m, kvs), sinks.length, none⟩ := by
  simp only [on_message, hp, hd]
  rw [if_neg hn, runStores_all_ok sinks n m (.jobj kvs) hs]

/-- Witness for C8: node `nodeX` is not in the allow-list `["node1"]`, yet
the message reaches the registered sink. -/
theorem c8_witness :
    parseTopicChars cfgEx.topicPre "/sensors/nodeX/temp".data = some ("nodeX", "temp") ∧
    "nodeX" ∉ cfgEx.nodeNames ∧
    on_message cfgEx (some [okSinkEx]) "/sensors/nodeX/temp" "1" =
      ⟨[.unknownNode "nodeX"], some ("nodeX", "temp", [("value", .jnum 1)]), 1, none⟩ := by
  have hs : ∀ s ∈ [okSinkEx], s "nodeX" "temp" (.jobj [("value", .jnum 1)]) = .ok () := by
    intro s hsv
    rw [List.mem_singleton] at hsv
    subst hsv
    rfl
  exact ⟨rfl, by decide,
    c8_unknown_node_still_forwarded cfgEx [okSinkEx] "/sensors/nodeX/temp" "1"
      "nodeX" "temp" [("value", .jnum 1)] rfl (by decide) rfl hs⟩

/-- Claim C9, counterexample.  The claim says a Source with no registrations
dispatches to an empty sink list and completes without raising.  But
`self._stores` is created lazily by the first `register_store` call, so with
zero registrations the `stores` property raises `AttributeError`, which
escapes the handler. -/
theorem c9_counterexample :
    on_message cfgEx none "/sensors/node1/temperature" "1" =
      ⟨[], some ("node1", "temperature", [("value", .jnum 1)]), 0,
        some .attributeError⟩ :=
  rfl

/-- Claim C9, amended: `register_store` appends, preserves registration order
and permits duplicates; but the sink list is created lazily on first
registration, so on a Source where `register_store` was never called the
`stores` access raises `AttributeError` (and handling an event therefore
raises instead of dispatching to an empty list). -/
theorem c9_amended (l : List Sink) (s t : Sink) :
    register_store none s = some [s] ∧
    register_store (some l) s = some (l ++ [s]) ∧
    register_store (register_store (some l) s) t = some (l ++ [s, t]) ∧
    register_store (register_store (some l) s) s = some (l ++ [s, s]) ∧
    storesRead none = .error .attributeError := by
  refine ⟨rfl, rfl, ?_, ?_, rfl⟩ <;> simp [register_store]

/-- Claim C10: `stores` returns a fresh copy of the registered-sink list, so
mutating the returned list leaves the Source's own list — and hence the
sinks a subsequent dispatch resolves and invokes — unchanged. -/
theorem c10_stores_returns_copy (h : List (List Nat)) (src : Nat) (v : List Nat)
    (resolve : Nat → Sink) (n m : String) (d : JValue)
    (hs : src < h.length) :
    (storesCopy h src).2 ≠ src ∧
    readCell (writeCell (storesCopy h src).1 (storesCopy h src).2 v) src = readCell h src ∧
    runStores (((readCell (writeCell (storesCopy h src).1 (storesCopy h src).2 v) src)).map resolve) n m d
      = runStores ((readCell h src).map resolve) n m d := by
  have hne : h.length ≠ src := Ne.symm (Nat.ne_of_lt hs)
  have hkey : readCell (writeCell (storesCopy h src).1 (storesCopy h src).2 v) src
      = readCell h src := by
    show ((h ++ [readCell h src]).set h.length v).getD src [] = h.getD src []
    rw [List.getD_eq_getElem?_getD, List.getD_eq_getElem?_getD,
      List.getElem?_set_ne hne, List.getElem?_append_left hs]
  exact ⟨hne, hkey, by rw [hkey]⟩

/-- Witness for C10 on a one-cell heap holding two sink identifiers:
overwriting the copy with the empty list leaves the original cell intact. -/
theorem c10_witness :
    (0 : Nat) < [[0, 1]].length ∧
    readCell (writeCell (storesCopy [[0, 1]] 0).1 (storesCopy [[0, 1]] 0).2 []) 0
      = readCell [[0, 1]] 0 :=
  ⟨by decide,
    (c10_stores_returns_copy [[0, 1]] 0 [] (fun _ => okSinkEx) "n" "m" .jnull (by decide)).2.1⟩

end Fwd
